import Mathlib

/-!
Verification of the request/response translation layer and the streaming
event sequencer of the copilot-proxy-api repository (Responses API route).

The definitions below are a shallow embedding of
`src/routes/responses/handler.ts` and `src/routes/responses/translation.ts`.
JavaScript objects are embedded as Lean structures; optional / possibly
`undefined` fields as `Option`; JavaScript truthiness tests on strings are
embedded as `≠ ""` tests, on optional values as pattern matches.  Timestamp
fields (`created_at`, the `Date.now()` part of the placeholder response id)
are ambient real-time values, not part of the translation logic; the
placeholder id is taken as a parameter.
-/

namespace CopilotProxy

/-! ## Canonical (chat-completions) data shapes, as read by the translation code -/

/-- A content part of a canonical chat message (`ContentPart`).  The handler
only inspects the `type` tag and the optional `text` field. -/
structure ContentPart where
  type : String
  text : Option String := none
  deriving DecidableEq, Repr

/-- Canonical message content: a plain string or an array of content parts. -/
inductive MsgContent where
  | str (s : String)
  | parts (ps : List ContentPart)
  deriving DecidableEq, Repr

/-- The `function` block of a canonical tool call. -/
structure FunctionCall where
  name : String
  arguments : String
  deriving DecidableEq, Repr

/-- A canonical tool call of a complete response. -/
structure ToolCall where
  id : String
  function : FunctionCall
  deriving DecidableEq, Repr

/-- A canonical chat message (`Message`): used both for normalized request
messages and for response choice messages. -/
structure Message where
  role : String
  content : Option MsgContent := none
  tool_call_id : Option String := none
  tool_calls : Option (List ToolCall) := none
  deriving DecidableEq, Repr

/-- Stand-in for a JSON object (`Record<string, unknown>`): the translation
code never looks inside tool parameters, it only defaults them. -/
abbrev JsonObj := List (String × String)

/-- Canonical tool definition's `function` block. -/
structure ToolFunction where
  name : String
  description : Option String := none
  parameters : JsonObj := []
  deriving DecidableEq, Repr

/-- Canonical tool definition (`Tool`). -/
structure Tool where
  type : String
  function : ToolFunction
  deriving DecidableEq, Repr

/-- Canonical tool-choice directive as produced by the translation
(`ChatCompletionsPayload["tool_choice"]`).  The code's string branch performs
an unchecked cast, so at runtime any string can flow through; the embedding
keeps the full string. -/
inductive ToolChoiceOut where
  | str (s : String)
  | function (name : String)
  deriving DecidableEq, Repr

/-- Canonical chat-completions request payload (`ChatCompletionsPayload`),
restricted to the fields the translation writes. -/
structure ChatCompletionsPayload where
  model : String
  messages : List Message
  max_tokens : Option Nat := none
  temperature : Option Rat := none
  top_p : Option Rat := none
  stream : Option Bool := none
  tools : Option (List Tool) := none
  tool_choice : Option ToolChoiceOut := none
  deriving DecidableEq, Repr

/-- Canonical usage block (`ChatCompletionResponse["usage"]`); the upstream
shape carries its own `total_tokens` (see the test fixtures), which the
translation deliberately ignores. -/
structure ChatUsage where
  prompt_tokens : Nat
  completion_tokens : Nat
  total_tokens : Nat
  deriving DecidableEq, Repr

/-- One choice of a complete canonical response. -/
structure ChatChoice where
  message : Message
  finish_reason : Option String := none
  deriving DecidableEq, Repr

/-- A complete canonical response (`ChatCompletionResponse`), restricted to
the fields the translation reads. -/
structure ChatCompletionResponse where
  id : String
  created : Nat
  model : String
  choices : List ChatChoice
  usage : Option ChatUsage := none
  deriving DecidableEq, Repr

/-! ## Responses-API (dialect) data shapes (`types.ts`) -/

/-- Embeds `ResponsesContentPart`. -/
structure ResponsesContentPart where
  type : String
  text : Option String := none
  image_url : Option String := none
  deriving DecidableEq, Repr

/-- Content of a responses-API input item: string or array of parts. -/
inductive RespItemContent where
  | str (s : String)
  | parts (ps : List ResponsesContentPart)
  deriving DecidableEq, Repr

/-- Embeds `ResponsesInputItem`. -/
structure ResponsesInputItem where
  role : String
  content : Option RespItemContent := none
  type : Option String := none
  tool_call_id : Option String := none
  output : Option String := none
  deriving DecidableEq, Repr

/-- The `function` reference inside an object-shaped `tool_choice`. -/
structure FunctionRef where
  name : String
  deriving DecidableEq, Repr

/-- The incoming `tool_choice` field: a string, or an object with a `type`
tag and an optional `function` reference. -/
inductive ToolChoiceIn where
  | str (s : String)
  | obj (type : String) (function : Option FunctionRef)
  deriving DecidableEq, Repr

/-- The `function` block of a `ResponsesTool`. -/
structure RespToolFunction where
  name : String
  description : Option String := none
  parameters : Option JsonObj := none
  deriving DecidableEq, Repr

/-- Embeds `ResponsesTool`. -/
structure ResponsesTool where
  type : String
  function : Option RespToolFunction := none
  deriving DecidableEq, Repr

/-- The `input` field: a plain string or an array of input items. -/
inductive RespInput where
  | str (s : String)
  | items (l : List ResponsesInputItem)
  deriving DecidableEq, Repr

/-- Embeds `ResponsesApiRequest`, restricted to the fields the translation reads. -/
structure ResponsesApiRequest where
  model : String
  input : Option RespInput := none
  instructions : Option String := none
  tools : Option (List ResponsesTool) := none
  tool_choice : Option ToolChoiceIn := none
  max_output_tokens : Option Nat := none
  temperature : Option Rat := none
  top_p : Option Rat := none
  stream : Option Bool := none
  deriving DecidableEq, Repr

/-- One content entry of a responses-API output item. -/
structure ResponsesOutputContent where
  type : String
  text : Option String := none
  deriving DecidableEq, Repr

/-- Embeds `ResponsesOutputItem`. -/
structure ResponsesOutputItem where
  id : String
  type : String
  role : Option String := none
  status : Option String := none
  content : Option (List ResponsesOutputContent) := none
  name : Option String := none
  arguments : Option String := none
  call_id : Option String := none
  deriving DecidableEq, Repr

/-- Embeds `ResponsesUsage`. -/
structure ResponsesUsage where
  input_tokens : Nat
  output_tokens : Nat
  total_tokens : Nat
  deriving DecidableEq, Repr

/-- Embeds `ResponsesApiResponse` (the `object: "response"` tag is constant and
omitted; `created_at` is copied from the canonical response). -/
structure ResponsesApiResponse where
  id : String
  created_at : Nat
  model : String
  output : List ResponsesOutputItem
  output_text : String
  usage : Option ResponsesUsage := none
  status : String
  deriving DecidableEq, Repr

/-! ## `translation.ts` — request normalization -/

/-- One responses-API part is text-bearing for `translateContent` when its
`type` is `input_text` or `output_text` and its `text` is present and
non-empty (`Boolean(part.text)`). -/
def isTextBearing (p : ResponsesContentPart) : Bool :=
  (p.type == "input_text" || p.type == "output_text") && p.text.getD "" != ""

/-- The text values retained from a part array: `content.filter(...).map(part => part.text)`
in `translateContent` (translation.ts lines 109–115). -/
def textsOf (ps : List ResponsesContentPart) : List String :=
  (ps.filter isTextBearing).map fun p => p.text.getD ""

/-- Embeds `translateContent` (translation.ts lines 103–118).  `!content` is true
for `undefined` and for the empty string; for part arrays the retained texts
are newline-joined, and `null` is returned when none remain. -/
def translateContent : Option RespItemContent → Option String
  | none => none
  | some (.str s) => if s = "" then none else some s
  | some (.parts ps) =>
    let textParts := textsOf ps
    if textParts.length > 0 then some (String.intercalate "\n" textParts) else none

/-- The `developer → system` role mapping (translation.ts line 95). -/
def mapRole (r : String) : String :=
  if r = "developer" then "system" else r

/-- Embeds `translateInputItem` (translation.ts lines 79–101).  The tool-result
branch fires when `item.type === "tool_result"` and `item.tool_call_id` is
truthy (present and non-empty); its content is `item.output ?? (typeof
item.content === "string" ? item.content : "")`.  Otherwise the item goes
through ordinary message translation and is dropped when its content
translates to nothing. -/
def translateInputItem (item : ResponsesInputItem) : Option Message :=
  if item.type = some "tool_result" ∧ item.tool_call_id.getD "" ≠ "" then
    some { role := "tool", tool_call_id := item.tool_call_id,
           content := some (.str (item.output.getD
             (match item.content with
              | some (.str s) => s
              | _ => ""))) }
  else
    match translateContent item.content with
    | none => none
    | some c => some { role := mapRole item.role, content := some (.str c) }

/-- Embeds `translateTools` (translation.ts lines 120–139). -/
def translateTools : Option (List ResponsesTool) → Option (List Tool)
  | none => none
  | some tools =>
    if tools.length = 0 then none
    else
      let result := tools.filterMap fun tool =>
        if tool.type = "function" then
          match tool.function with
          | some f => some (Tool.mk "function"
              { name := f.name, description := f.description,
                parameters := f.parameters.getD [] })
          | none => none
        else none
      if result.length > 0 then some result else none

/-- Embeds `translateResponsesToChat` (translation.ts lines 20–77).  The
tool-choice branch (lines 52–65): a truthy string is assigned unchanged (the
`as` cast performs no runtime check); an object with `type === "function"`
and a truthy `function?.name` becomes the pinned-function directive; every
other shape leaves `toolChoice` undefined. -/
def translateResponsesToChat (request : ResponsesApiRequest) : ChatCompletionsPayload :=
  let instrMessages : List Message :=
    match request.instructions with
    | some ins => if ins = "" then [] else [{ role := "system", content := some (.str ins) }]
    | none => []
  let inputMessages : List Message :=
    match request.input with
    | some (.str s) => [{ role := "user", content := some (.str s) }]
    | some (.items l) => l.filterMap translateInputItem
    | none => []
  let toolChoice : Option ToolChoiceOut :=
    match request.tool_choice with
    | none => none
    | some (.str s) => if s = "" then none else some (.str s)
    | some (.obj t f) =>
      if t = "function" then
        match f with
        | some fn => if fn.name = "" then none else some (.function fn.name)
        | none => none
      else none
  { model := request.model
    messages := instrMessages ++ inputMessages
    max_tokens := request.max_output_tokens
    temperature := request.temperature
    top_p := request.top_p
    stream := request.stream
    tools := translateTools request.tools
    tool_choice := toolChoice }

/-! ## `translation.ts` — response projection -/

/-- Embeds `extractTextContent` (translation.ts lines 214–227): a string passes
through; a non-array (`null`) yields `""`; an array keeps parts with
`p.type === "text" && "text" in p` and joins their texts with no
separator. -/
def extractTextContent : Option MsgContent → String
  | some (.str s) => s
  | none => ""
  | some (.parts ps) =>
    String.join ((ps.filter fun p => p.type == "text" && p.text.isSome).map
      fun p => p.text.getD "")

/-- JavaScript truthiness of a `string | Array<ContentPart>` content value:
the empty string is falsy, any array (even empty) is truthy. -/
def MsgContent.truthy : MsgContent → Bool
  | .str s => s != ""
  | .parts _ => true

/-- The per-choice body of the loop in `translateChatToResponses`
(translation.ts lines 151–188), threading the output list and the flattened
output text. -/
def processResponseChoice (responseId : String)
    (acc : List ResponsesOutputItem × String) (choice : ChatChoice) :
    List ResponsesOutputItem × String :=
  let (output, outputText) := acc
  let (output, outputText) :=
    match choice.message.content with
    | some mc =>
      if mc.truthy then
        let textContent := extractTextContent (some mc)
        if textContent ≠ "" then
          (output ++ [({ id := "msg_" ++ responseId, type := "message",
                         role := some "assistant", status := some "completed",
                         content := some [{ type := "output_text",
                                            text := some textContent }] } :
                        ResponsesOutputItem)],
           textContent)
        else (output, outputText)
      else (output, outputText)
    | none => (output, outputText)
  let output :=
    match choice.message.tool_calls with
    | some tcs =>
      output ++ tcs.map fun toolCall =>
        ({ id := "fc_" ++ toolCall.id, type := "function_call",
           status := some "completed", name := some toolCall.function.name,
           arguments := some toolCall.function.arguments,
           call_id := some toolCall.id } : ResponsesOutputItem)
    | none => output
  (output, outputText)

/-- Embeds `translateUsage` (translation.ts lines 202–212): absent usage is
omitted; otherwise the total is recomputed as prompt + completion, ignoring
any upstream total. -/
def translateUsage : Option ChatUsage → Option ResponsesUsage
  | none => none
  | some usage =>
    some { input_tokens := usage.prompt_tokens
           output_tokens := usage.completion_tokens
           total_tokens := usage.prompt_tokens + usage.completion_tokens }

/-- Embeds `translateChatToResponses` (translation.ts lines 144–200). -/
def translateChatToResponses (response : ChatCompletionResponse) (model : String) :
    ResponsesApiResponse :=
  let (output, outputText) :=
    response.choices.foldl (processResponseChoice response.id) ([], "")
  { id := response.id
    created_at := response.created
    model := if response.model ≠ "" then response.model else model
    output := output
    output_text := outputText
    usage := translateUsage response.usage
    status := "completed" }

/-! ## `handler.ts` — streaming event sequencer

The streaming branch of `handleResponses` (handler.ts lines 51–61) creates a
`StreamState`, emits a created event, feeds every raw SSE record through
`processStreamChunk`, and finally emits a terminal done event.  A raw record
is embedded as `Option ChatCompletionChunk`: `none` stands for a record on
which `JSON.parse` throws (the `catch` in `processStreamChunk` swallows it).
SSE emission is embedded by returning the ordered list of emitted events. -/

/-- The `function` fragment of a streamed tool-call delta. -/
structure ToolCallFuncFragment where
  name : Option String := none
  arguments : Option String := none
  deriving DecidableEq, Repr

/-- A streamed tool-call fragment (`delta.tool_calls[i]`): the handler reads
`id` and `function`; `index` is carried on the wire but never read. -/
structure ToolCallFragment where
  index : Nat
  id : Option String := none
  function : Option ToolCallFuncFragment := none
  deriving DecidableEq, Repr

/-- The `delta` of one streamed choice. -/
structure ChoiceDelta where
  content : Option String := none
  tool_calls : Option (List ToolCallFragment) := none
  deriving DecidableEq, Repr

/-- One choice of a streamed chunk. -/
structure ChunkChoice where
  delta : ChoiceDelta
  finish_reason : Option String := none
  deriving DecidableEq, Repr

/-- Embeds `ChatCompletionChunk`, restricted to the fields the handler reads.  A
missing `id` on the wire behaves like the empty string under the handler's
`if (chunk.id)` truthiness test. -/
structure ChatCompletionChunk where
  id : String := ""
  choices : List ChunkChoice := []
  deriving DecidableEq, Repr

/-- Embeds `StreamState` (handler.ts lines 64–69). -/
structure StreamState where
  outputText : String
  responseId : String
  model : String
  outputIndex : Nat
  deriving DecidableEq, Repr

/-- Embeds `createStreamState` (handler.ts lines 71–78); the `resp_${Date.now()}`
placeholder id is taken as a parameter. -/
def createStreamState (model placeholderId : String) : StreamState :=
  { outputText := "", responseId := placeholderId, model := model, outputIndex := 0 }

/-- The dialect events emitted on the SSE stream, carrying the payload
fields the handler writes (timestamps omitted, see the file header).  In
`sendFunctionCallStartEvent` the item id is `` `fc_${toolCall.id}` ``, which
JavaScript renders as `"fc_undefined"` when the id is absent. -/
inductive RespEvent where
  | created (responseId model : String)
  | textDelta (delta : String) (outputIndex contentIndex : Nat)
  | functionCallStart (itemId : String) (name : Option String)
      (callId : Option String) (outputIndex : Nat)
  | functionCallArgsDelta (delta : String) (outputIndex : Nat)
  | textDone (outputIndex contentIndex : Nat)
  | done (responseId model outputText : String)
  deriving DecidableEq, Repr

/-- The `` `fc_${toolCall.id}` `` template of `sendFunctionCallStartEvent`. -/
def fcItemId : Option String → String
  | some s => "fc_" ++ s
  | none => "fc_undefined"

/-- The per-fragment body of the loop in `processToolCalls` (handler.ts
lines 169–181): a start event whenever `toolCall.function?.name` is truthy,
then an arguments-delta event whenever `toolCall.function?.arguments` is
truthy. -/
def processToolCall (toolCall : ToolCallFragment) (outputIndex : Nat) : List RespEvent :=
  (match toolCall.function with
   | some f =>
     (if f.name.getD "" ≠ "" then
        [RespEvent.functionCallStart (fcItemId toolCall.id) f.name toolCall.id outputIndex]
      else []) ++
     (if f.arguments.getD "" ≠ "" then
        [RespEvent.functionCallArgsDelta (f.arguments.getD "") outputIndex]
      else [])
   | none => [])

/-- Embeds `processToolCalls` (handler.ts lines 160–182). -/
def processToolCalls (toolCalls : List ToolCallFragment) (outputIndex : Nat) :
    List RespEvent :=
  toolCalls.flatMap (processToolCall · outputIndex)

/-- Embeds `processChoice` (handler.ts lines 122–141): a truthy `delta.content` is
appended to `outputText` and emitted as a text-delta; `delta.tool_calls` is
forwarded to `processToolCalls`; a truthy `finish_reason` with a non-empty
`outputText` (checked after the append) emits a text-done event. -/
def processChoice (choice : ChunkChoice) (st : StreamState) :
    StreamState × List RespEvent :=
  let (st, contentEvents) :=
    match choice.delta.content with
    | some c =>
      if c ≠ "" then
        ({ st with outputText := st.outputText ++ c },
         [RespEvent.textDelta c st.outputIndex 0])
      else (st, [])
    | none => (st, [])
  let toolCallEvents :=
    match choice.delta.tool_calls with
    | some tcs => processToolCalls tcs st.outputIndex
    | none => []
  let doneEvents :=
    if choice.finish_reason.getD "" ≠ "" ∧ st.outputText ≠ "" then
      [RespEvent.textDone st.outputIndex 0]
    else []
  (st, contentEvents ++ toolCallEvents ++ doneEvents)

/-- The `for (const choice of chunk.choices)` loop of `processStreamChunk`. -/
def processChoices : List ChunkChoice → StreamState → StreamState × List RespEvent
  | [], st => (st, [])
  | c :: cs, st =>
    let (st₁, evs₁) := processChoice c st
    let (st₂, evs₂) := processChoices cs st₁
    (st₂, evs₁ ++ evs₂)

/-- Embeds `processStreamChunk` (handler.ts lines 101–120): an undecodable record
(`none`) is skipped with no events and no state change; otherwise a truthy
chunk id overwrites `responseId`, then every choice is processed in order. -/
def processStreamChunk (rawEvent : Option ChatCompletionChunk) (st : StreamState) :
    StreamState × List RespEvent :=
  match rawEvent with
  | none => (st, [])
  | some chunk =>
    let st := if chunk.id ≠ "" then { st with responseId := chunk.id } else st
    processChoices chunk.choices st

/-- The `for await (const rawEvent of response)` loop of `handleResponses`. -/
def feedRecords : List (Option ChatCompletionChunk) → StreamState →
    StreamState × List RespEvent
  | [], st => (st, [])
  | r :: rs, st =>
    let (st₁, evs₁) := processStreamChunk r st
    let (st₂, evs₂) := feedRecords rs st₁
    (st₂, evs₁ ++ evs₂)

/-- The streaming branch of `handleResponses` (handler.ts lines 51–61):
created event, then the events of every record in order, then the terminal
done event built from the final state (`sendDoneEvent`, lines 237–256). -/
def handleResponsesStream (model placeholderId : String)
    (records : List (Option ChatCompletionChunk)) : List RespEvent :=
  let st₀ := createStreamState model placeholderId
  let (st, evs) := feedRecords records st₀
  RespEvent.created st₀.responseId st₀.model ::
    (evs ++ [RespEvent.done st.responseId st.model st.outputText])

/-! ## Helper predicates on emitted events -/

/-- Is an event the terminal done event? -/
def isDoneEvent : RespEvent → Bool
  | .done .. => true
  | _ => false

/-- Is an event a function-call start event? -/
def isStartEvent : RespEvent → Bool
  | .functionCallStart .. => true
  | _ => false

/-- Does a tool-call fragment make `processToolCalls` emit a start event,
i.e. is `toolCall.function?.name` truthy? -/
def fragEmitsStart (tc : ToolCallFragment) : Bool :=
  match tc.function with
  | some f => f.name.getD "" != ""
  | none => false

/-! ## Theorems -/

/-- Auxiliary: `feedRecords` distributes over list append. -/
theorem feedRecords_append (rs₁ rs₂ : List (Option ChatCompletionChunk)) (st : StreamState) :
    feedRecords (rs₁ ++ rs₂) st =
      ((feedRecords rs₂ (feedRecords rs₁ st).1).1,
       (feedRecords rs₁ st).2 ++ (feedRecords rs₂ (feedRecords rs₁ st).1).2) := by
  induction rs₁ generalizing st with
  | nil => simp [feedRecords]
  | cons r rs ih => simp [feedRecords, ih]

/-- Claim C1: on the two-chunk input (chunk 1: text delta "Hello"; chunk 2:
text delta " world" together with a finish_reason), the sequencer emits
exactly, in order: created, text-delta "Hello", text-delta " world",
text-done, and the terminal done event with accumulated text
"Hello world". -/
theorem streaming_two_chunk_sequence (model placeholderId : String) :
    handleResponsesStream model placeholderId
      [some { id := "", choices := [{ delta := { content := some "Hello" } }] },
       some { id := "", choices := [{ delta := { content := some " world" },
                                      finish_reason := some "stop" }] }] =
      [RespEvent.created placeholderId model,
       RespEvent.textDelta "Hello" 0 0,
       RespEvent.textDelta " world" 0 0,
       RespEvent.textDone 0 0,
       RespEvent.done placeholderId model "Hello world"] := by
  rfl

/-- Claim C4: an undecodable record produces no events and leaves the
translation state unchanged, and removing it from any position of the record
sequence leaves the whole emitted event stream unchanged — a single
malformed record never terminates the stream or affects later records. -/
theorem malformed_record_skipped (model placeholderId : String) (st : StreamState)
    (rs₁ rs₂ : List (Option ChatCompletionChunk)) :
    processStreamChunk none st = (st, []) ∧
    handleResponsesStream model placeholderId (rs₁ ++ none :: rs₂) =
      handleResponsesStream model placeholderId (rs₁ ++ rs₂) := by
  refine ⟨rfl, ?_⟩
  have h : rs₁ ++ none :: rs₂ = rs₁ ++ [none] ++ rs₂ := by simp
  rw [h]
  simp [handleResponsesStream, feedRecords_append, feedRecords, processStreamChunk]

/-- Claim C8: when canonical usage is present with prompt `p` and completion
`c`, the projected usage is `⟨p, c, p + c⟩` — the total is recomputed as
`p + c` regardless of any upstream total `t`; when canonical usage is absent
the projected usage is omitted. -/
theorem usage_projection (resp : ChatCompletionResponse) (model : String) (p c t : Nat) :
    (resp.usage = some ⟨p, c, t⟩ →
      (translateChatToResponses resp model).usage = some ⟨p, c, p + c⟩) ∧
    (resp.usage = none → (translateChatToResponses resp model).usage = none) := by
  constructor <;> intro h <;> simp [translateChatToResponses, translateUsage, h]

/-- A canonical response with upstream usage reporting a wrong total (99). -/
def usageExampleResponse : ChatCompletionResponse :=
  { id := "r", created := 1, model := "m", choices := [],
    usage := some { prompt_tokens := 10, completion_tokens := 8, total_tokens := 99 } }

/-- Witness for C8 at a concrete response whose upstream total (99)
disagrees with `10 + 8`. -/
theorem usage_projection_witness :
    (translateChatToResponses usageExampleResponse "m").usage =
      some { input_tokens := 10, output_tokens := 8, total_tokens := 18 } :=
  (usage_projection usageExampleResponse "m" 10 8 99).1 rfl

/-- Claim C9: projection extracts assistant text from a part array by
concatenating the texts of parts of type `"text"` with the empty-string
join, ignoring non-text parts wherever they are interleaved; contrast the
newline join of request normalization on two texts. -/
theorem extract_text_empty_join :
    (∀ (ps₁ ps₂ : List ContentPart) (p : ContentPart), p.type ≠ "text" →
      extractTextContent (some (.parts (ps₁ ++ p :: ps₂))) =
        extractTextContent (some (.parts (ps₁ ++ ps₂)))) ∧
    (∀ ps : List ContentPart, extractTextContent (some (.parts ps)) =
      String.join ((ps.filter fun p => p.type == "text" && p.text.isSome).map
        fun p => p.text.getD "")) ∧
    extractTextContent
        (some (.parts [{ type := "text", text := some "a" },
                       { type := "text", text := some "b" }])) = "ab" ∧
    translateContent
        (some (.parts [{ type := "input_text", text := some "a" },
                       { type := "input_text", text := some "b" }])) = some "a\nb" := by
  refine ⟨?_, fun ps => rfl, rfl, rfl⟩
  intro ps₁ ps₂ p hp
  have hpt : (p.type == "text") = false := by
    simpa using hp
  simp [extractTextContent, List.filter_append, List.filter_cons, hpt]

/-- Witness for C9: inserting a non-text part does not change the extracted
text. -/
theorem extract_text_empty_join_witness :
    extractTextContent
        (some (.parts [{ type := "text", text := some "a" },
                       { type := "image_url" },
                       { type := "text", text := some "b" }])) =
      extractTextContent
        (some (.parts [{ type := "text", text := some "a" },
                       { type := "text", text := some "b" }])) :=
  extract_text_empty_join.1 [{ type := "text", text := some "a" }]
    [{ type := "text", text := some "b" }] { type := "image_url" } (by decide)

/-- Claim C7: in a content-part array, non-text-bearing parts never affect
the normalized content wherever they are interleaved; the content of the
surviving text values is their newline join; an item whose parts yield zero
text values is dropped entirely. -/
theorem content_part_collapsing :
    (∀ (ps₁ ps₂ : List ResponsesContentPart) (p : ResponsesContentPart),
      isTextBearing p = false →
      translateContent (some (.parts (ps₁ ++ p :: ps₂))) =
        translateContent (some (.parts (ps₁ ++ ps₂)))) ∧
    (∀ ps : List ResponsesContentPart, textsOf ps ≠ [] →
      translateContent (some (.parts ps)) =
        some (String.intercalate "\n" (textsOf ps))) ∧
    (∀ (item : ResponsesInputItem) (ps : List ResponsesContentPart),
      item.type = none → item.content = some (.parts ps) → textsOf ps = [] →
      translateInputItem item = none) := by
  refine ⟨?_, ?_, ?_⟩
  · intro ps₁ ps₂ p hp
    simp [translateContent, textsOf, List.filter_append, List.filter_cons, hp]
  · intro ps hne
    have hlen : 0 < (textsOf ps).length := List.length_pos.mpr hne
    simp [translateContent, hlen]
  · intro item ps htype hcontent hempty
    have : ¬(item.type = some "tool_result" ∧ item.tool_call_id.getD "" ≠ "") := by
      simp [htype]
    simp [translateInputItem, this, hcontent, translateContent, hempty]

/-- Witness for C7: an interleaved image part does not change the newline
join; an item with only an image part is dropped. -/
theorem content_part_collapsing_witness :
    translateContent
        (some (.parts [{ type := "input_text", text := some "a" },
                       { type := "input_image", image_url := some "u" },
                       { type := "input_text", text := some "b" }])) =
      translateContent
        (some (.parts [{ type := "input_text", text := some "a" },
                       { type := "input_text", text := some "b" }])) ∧
    translateInputItem
        { role := "user",
          content := some (.parts [{ type := "input_image", image_url := some "u" }]) } =
      none :=
  ⟨content_part_collapsing.1 [{ type := "input_text", text := some "a" }]
      [{ type := "input_text", text := some "b" }]
      { type := "input_image", image_url := some "u" } (by decide),
   content_part_collapsing.2.2
      { role := "user",
        content := some (.parts [{ type := "input_image", image_url := some "u" }]) }
      [{ type := "input_image", image_url := some "u" }] rfl rfl (by decide)⟩

/-- Claim C10: an input item typed `tool_result` whose `tool_call_id` is
absent or empty does not become a tool message: it goes through ordinary
message translation (role mapped `developer → system`, content translated,
dropped when the content yields nothing). -/
theorem tool_result_without_id_falls_through (item : ResponsesInputItem)
    (htype : item.type = some "tool_result")
    (hid : item.tool_call_id = none ∨ item.tool_call_id = some "") :
    translateInputItem item =
      match translateContent item.content with
      | none => none
      | some c => some { role := mapRole item.role, content := some (.str c) } := by
  have hfalse : ¬(item.type = some "tool_result" ∧ item.tool_call_id.getD "" ≠ "") := by
    rcases hid with h | h <;> simp [h]
  simp [translateInputItem, hfalse]

/-- Witness for C10: a `tool_result` item with no `tool_call_id` and a
developer role becomes an ordinary system message. -/
theorem tool_result_without_id_falls_through_witness :
    translateInputItem
        { role := "developer", content := some (.str "hi"),
          type := some "tool_result" } =
      some { role := "system", content := some (.str "hi") } :=
  tool_result_without_id_falls_through
    { role := "developer", content := some (.str "hi"), type := some "tool_result" }
    rfl (Or.inl rfl)

/-- A `tool_result` item carrying a `tool_call_id` but neither an `output`
field nor string content: its translated tool message has empty content. -/
def toolResultEmptyContentItem : ResponsesInputItem :=
  { role := "user",
    content := some (.parts [{ type := "input_text", text := some "x" }]),
    type := some "tool_result", tool_call_id := some "c1" }

/-- A `tool_result` item with no `tool_call_id`: it does not become a tool
message at all. -/
def toolResultNoIdItem : ResponsesInputItem :=
  { role := "user",
    content := some (.parts [{ type := "input_text", text := some "x" }]),
    type := some "tool_result" }

/-- Counterexample to C5: `toolResultEmptyContentItem` is of tool-result
kind yet its canonical message content is the empty string, refuting
"non-empty content"; `toolResultNoIdItem` is of tool-result kind yet its
canonical message has role `"user"`, refuting "has role tool". -/
theorem tool_result_invariant_counterexample :
    translateInputItem toolResultEmptyContentItem =
      some { role := "tool", tool_call_id := some "c1",
             content := some (.str "") } ∧
    translateInputItem toolResultNoIdItem =
      some { role := "user", content := some (.str "x") } ∧
    ("user" : String) ≠ "tool" := by
  refine ⟨rfl, rfl, by decide⟩

/-- Claim C5 as amended: for every input item of tool-result kind whose
`tool_call_id` is present and non-empty, the canonical message has role
`tool` and carries that `tool_call_id`, regardless of the item's declared
role; its content is the item's `output` when present, else its string
content, else the empty string — and may therefore be empty. -/
theorem tool_result_message_shape (item : ResponsesInputItem) (cid : String)
    (htype : item.type = some "tool_result")
    (hid : item.tool_call_id = some cid) (hne : cid ≠ "") :
    translateInputItem item =
      some { role := "tool", tool_call_id := some cid,
             content := some (.str (item.output.getD
               (match item.content with
                | some (.str s) => s
                | _ => ""))) } := by
  simp [translateInputItem, htype, hid, hne]

/-- Witness for C5 (amended): a user-role tool-result item with an `output`
becomes a tool message carrying that output. -/
theorem tool_result_message_shape_witness :
    translateInputItem
        { role := "user", content := some (.str "Get weather"),
          type := some "tool_result", tool_call_id := some "call_123",
          output := some "Weather is sunny" } =
      some { role := "tool", tool_call_id := some "call_123",
             content := some (.str "Weather is sunny") } :=
  tool_result_message_shape
    { role := "user", content := some (.str "Get weather"),
      type := some "tool_result", tool_call_id := some "call_123",
      output := some "Weather is sunny" }
    "call_123" rfl rfl (by decide)

/-- A request whose `tool_choice` is the unrecognized string `"banana"`. -/
def bananaToolChoiceRequest : ResponsesApiRequest :=
  { model := "m", input := some (.str "hi"), tool_choice := some (.str "banana") }

/-- Counterexample to C6: the string `"banana"` is none of the three
recognized literals, yet the code passes it through unchanged (the cast in
translation.ts line 55 performs no runtime check) instead of leaving the
canonical tool_choice unset. -/
theorem tool_choice_counterexample :
    (translateResponsesToChat bananaToolChoiceRequest).tool_choice =
      some (.str "banana") ∧
    ("banana" : String) ≠ "auto" ∧ ("banana" : String) ≠ "none" ∧
    ("banana" : String) ≠ "required" := by
  refine ⟨rfl, by decide, by decide, by decide⟩

/-- Claim C6 as amended: a string `tool_choice` is passed through unchanged
whenever it is non-empty, whether or not it is a recognized literal; the
empty string leaves the canonical tool_choice unset; an object of type
`function` maps to the pinned-function directive exactly when it carries a
non-empty function name; every other shape leaves it unset. -/
theorem tool_choice_mapping :
    (∀ (req : ResponsesApiRequest) (s : String), req.tool_choice = some (.str s) →
      (translateResponsesToChat req).tool_choice =
        if s = "" then none else some (.str s)) ∧
    (∀ (req : ResponsesApiRequest) (t : String) (fn : FunctionRef),
      req.tool_choice = some (.obj t (some fn)) →
      (translateResponsesToChat req).tool_choice =
        if t = "function" ∧ fn.name ≠ "" then some (.function fn.name) else none) ∧
    (∀ (req : ResponsesApiRequest) (t : String),
      req.tool_choice = some (.obj t none) →
      (translateResponsesToChat req).tool_choice = none) ∧
    (∀ req : ResponsesApiRequest, req.tool_choice = none →
      (translateResponsesToChat req).tool_choice = none) := by
  refine ⟨?_, ?_, ?_, ?_⟩
  · intro req s h
    simp [translateResponsesToChat, h]
  · intro req t fn h
    by_cases ht : t = "function"
    · by_cases hn : fn.name = ""
      · simp [translateResponsesToChat, h, ht, hn]
      · simp [translateResponsesToChat, h, ht, hn]
    · simp [translateResponsesToChat, h, ht]
  · intro req t h
    by_cases ht : t = "function" <;> simp [translateResponsesToChat, h, ht]
  · intro req h
    simp [translateResponsesToChat, h]

/-- Witness for C6 (amended): the recognized literal `"auto"` passes
through. -/
theorem tool_choice_mapping_witness :
    (translateResponsesToChat
        { model := "m", input := some (.str "hi"),
          tool_choice := some (.str "auto") }).tool_choice =
      some (.str "auto") := by
  have h := tool_choice_mapping.1
    { model := "m", input := some (.str "hi"), tool_choice := some (.str "auto") }
    "auto" rfl
  simpa using h

/-- A named tool-call fragment for index 0 (id `c1`, name `get_weather`). -/
def namedFragment : ToolCallFragment :=
  { index := 0, id := some "c1",
    function := some { name := some "get_weather" } }

/-- Counterexample to C2: the handler keeps no per-index "already
introduced" flag — it emits a start event for every fragment whose
`function.name` is truthy.  Two named fragments for the same index 0 yield
two start events although only one tool-call index was introduced. -/
theorem function_call_start_counterexample :
    ((processToolCalls [namedFragment, namedFragment] 0).filter isStartEvent).length = 2 ∧
    ([namedFragment, namedFragment].map ToolCallFragment.index).dedup.length = 1 := by
  refine ⟨rfl, by decide⟩

/-- Auxiliary: one fragment contributes one start event exactly when its
`function?.name` is truthy. -/
theorem processToolCall_start_count (tc : ToolCallFragment) (oi : Nat) :
    ((processToolCall tc oi).filter isStartEvent).length =
      if fragEmitsStart tc then 1 else 0 := by
  rcases hfn : tc.function with _ | f
  · simp [processToolCall, fragEmitsStart, hfn]
  · by_cases hn : f.name.getD "" = "" <;>
      by_cases ha : f.arguments.getD "" = "" <;>
        simp [processToolCall, fragEmitsStart, hfn, hn, ha, isStartEvent]

/-- Auxiliary: each fragment contributes one start event exactly when its
`function?.name` is truthy. -/
theorem processToolCalls_start_count (tcs : List ToolCallFragment) (oi : Nat) :
    ((processToolCalls tcs oi).filter isStartEvent).length =
      (tcs.filter fragEmitsStart).length := by
  induction tcs with
  | nil => rfl
  | cons tc rest ih =>
    have hsplit : processToolCalls (tc :: rest) oi =
        processToolCall tc oi ++ processToolCalls rest oi := by
      simp [processToolCalls]
    rw [hsplit, List.filter_append, List.length_append, ih, List.filter_cons,
      processToolCall_start_count]
    by_cases hf : fragEmitsStart tc <;> simp [hf] <;> omega

/-- The second tool-call fragment of the C2 scenario: the first half of the
arguments. -/
def argsFragment1 : ToolCallFragment :=
  { index := 0, function := some { arguments := some "\x7b\"loc\":" } }

/-- The third tool-call fragment of the C2 scenario: the second half of the
arguments. -/
def argsFragment2 : ToolCallFragment :=
  { index := 0, function := some { arguments := some "\"NYC\"\x7d" } }

/-- A chunk carrying a single tool-call fragment in choice 0. -/
def toolCallChunk (frag : ToolCallFragment) : ChatCompletionChunk :=
  { choices := [{ delta := { tool_calls := some [frag] } }] }

/-- Claim C2 as amended: a function-call start event is emitted once per
fragment carrying a truthy function name — not once per newly introduced
index — and each fragment carrying truthy arguments emits one
argument-delta event.  In particular the fragment sequence
`{index 0, id c1, name get_weather}`, `{index 0, arguments "{\x7b\"loc\":"}`,
`{index 0, arguments "\"NYC\"}"}` yields exactly one start event (name
`get_weather`, id `c1`) and two argument-delta events whose concatenation
equals `{\x7b"loc":"NYC"}`. -/
theorem function_call_events :
    (∀ (tcs : List ToolCallFragment) (oi : Nat),
      ((processToolCalls tcs oi).filter isStartEvent).length =
        (tcs.filter fragEmitsStart).length) ∧
    handleResponsesStream "m" "p"
        [some (toolCallChunk namedFragment),
         some (toolCallChunk argsFragment1),
         some (toolCallChunk argsFragment2)] =
      [RespEvent.created "p" "m",
       RespEvent.functionCallStart "fc_c1" (some "get_weather") (some "c1") 0,
       RespEvent.functionCallArgsDelta "\x7b\"loc\":" 0,
       RespEvent.functionCallArgsDelta "\"NYC\"\x7d" 0,
       RespEvent.done "p" "m" ""] ∧
    "\x7b\"loc\":" ++ "\"NYC\"\x7d" = "\x7b\"loc\":\"NYC\"\x7d" := by
  refine ⟨processToolCalls_start_count, rfl, rfl⟩

/-! ## Event-ordering machinery for the streaming sequencer (claim C3) -/

/-- The text slots (output index, content index) that have received at
least one text-delta event while scanning an event list, starting from
`opened`. -/
def openedAfter (opened : List (Nat × Nat)) : List RespEvent → List (Nat × Nat)
  | [] => opened
  | .textDelta _ oi ci :: rest => openedAfter ((oi, ci) :: opened) rest
  | _ :: rest => openedAfter opened rest

/-- Scan of an event list checking the per-slot ordering rule: a text-done
event for a slot is accepted only when that slot has already received a
text-delta event. -/
def checkTextOrder (opened : List (Nat × Nat)) : List RespEvent → Bool
  | [] => true
  | .textDelta _ oi ci :: rest => checkTextOrder ((oi, ci) :: opened) rest
  | .textDone oi ci :: rest => decide ((oi, ci) ∈ opened) && checkTextOrder opened rest
  | _ :: rest => checkTextOrder opened rest

/-- Auxiliary: `openedAfter` composes over list append. -/
theorem openedAfter_append (opened : List (Nat × Nat)) (xs ys : List RespEvent) :
    openedAfter opened (xs ++ ys) = openedAfter (openedAfter opened xs) ys := by
  induction xs generalizing opened with
  | nil => rfl
  | cons e rest ih => cases e <;> simp [openedAfter, ih]

/-- Auxiliary: `checkTextOrder` splits over list append. -/
theorem checkTextOrder_append (opened : List (Nat × Nat)) (xs ys : List RespEvent) :
    checkTextOrder opened (xs ++ ys) =
      (checkTextOrder opened xs && checkTextOrder (openedAfter opened xs) ys) := by
  induction xs generalizing opened with
  | nil => simp [checkTextOrder, openedAfter]
  | cons e rest ih =>
    cases e <;> simp [checkTextOrder, openedAfter, ih, Bool.and_assoc]

/-- Auxiliary: tool-call fragment events contain no text-delta, no
text-done and no terminal done event, so they neither open nor close text
slots. -/
theorem processToolCalls_textOrder (tcs : List ToolCallFragment) (oi : Nat)
    (opened : List (Nat × Nat)) :
    checkTextOrder opened (processToolCalls tcs oi) = true ∧
    openedAfter opened (processToolCalls tcs oi) = opened ∧
    (processToolCalls tcs oi).all (fun e => !isDoneEvent e) = true := by
  induction tcs with
  | nil => exact ⟨rfl, rfl, rfl⟩
  | cons tc rest ih =>
    have hsplit : processToolCalls (tc :: rest) oi =
        processToolCall tc oi ++ processToolCalls rest oi := by
      simp [processToolCalls]
    have htc : checkTextOrder opened (processToolCall tc oi) = true ∧
        openedAfter opened (processToolCall tc oi) = opened ∧
        (processToolCall tc oi).all (fun e => !isDoneEvent e) = true := by
      rcases hfn : tc.function with _ | f
      · simp [processToolCall, hfn, checkTextOrder, openedAfter]
      · by_cases hn : f.name.getD "" = "" <;> by_cases ha : f.arguments.getD "" = "" <;>
          simp [processToolCall, hfn, hn, ha, checkTextOrder, openedAfter, isDoneEvent]
    rw [hsplit, checkTextOrder_append, openedAfter_append, htc.2.1, List.all_append]
    exact ⟨by rw [htc.1, ih.1]; rfl, ih.2.1, by rw [htc.2.2, ih.2.2]; rfl⟩

/-- Auxiliary: the tool-call part of `processChoice` (either nothing or
`processToolCalls`), for any opened set. -/
theorem toolCallEvents_ok (tc? : Option (List ToolCallFragment)) (oi : Nat)
    (opened : List (Nat × Nat)) :
    checkTextOrder opened
        (match tc? with
         | some tcs => processToolCalls tcs oi
         | none => []) = true ∧
    openedAfter opened
        (match tc? with
         | some tcs => processToolCalls tcs oi
         | none => []) = opened ∧
    (match tc? with
     | some tcs => processToolCalls tcs oi
     | none => []).all (fun e => !isDoneEvent e) = true := by
  rcases tc? with _ | tcs
  · exact ⟨rfl, rfl, rfl⟩
  · exact processToolCalls_textOrder tcs oi opened

/-- Auxiliary: one `processChoice` step preserves the sequencer invariant:
its events pass the per-slot ordering check, the output index stays 0, a
non-empty accumulated text implies slot (0, 0) is open, and no terminal
done event is emitted. -/
theorem processChoice_ok (choice : ChunkChoice) (st : StreamState)
    (opened : List (Nat × Nat)) (hidx : st.outputIndex = 0)
    (hinv : st.outputText ≠ "" → (0, 0) ∈ opened) :
    checkTextOrder opened (processChoice choice st).2 = true ∧
    (processChoice choice st).1.outputIndex = 0 ∧
    ((processChoice choice st).1.outputText ≠ "" →
      (0, 0) ∈ openedAfter opened (processChoice choice st).2) ∧
    (processChoice choice st).2.all (fun e => !isDoneEvent e) = true := by
  rcases hc : choice.delta.content with _ | c
  case none =>
    have key : processChoice choice st =
        (st, (match choice.delta.tool_calls with
              | some tcs => processToolCalls tcs st.outputIndex
              | none => []) ++
             (if choice.finish_reason.getD "" ≠ "" ∧ st.outputText ≠ "" then
                [RespEvent.textDone st.outputIndex 0] else [])) := by
      simp [processChoice, hc]
    obtain ⟨t1, t2, t3⟩ := toolCallEvents_ok choice.delta.tool_calls st.outputIndex opened
    rw [key]
    refine ⟨?_, hidx, ?_, ?_⟩
    · rw [checkTextOrder_append, t1, t2, Bool.true_and]
      by_cases hfin : choice.finish_reason.getD "" ≠ "" ∧ st.outputText ≠ ""
      · rw [if_pos hfin, hidx]
        simp only [checkTextOrder, Bool.and_true, decide_eq_true_eq]
        exact hinv hfin.2
      · rw [if_neg hfin]; rfl
    · intro hne
      rw [openedAfter_append, t2]
      by_cases hfin : choice.finish_reason.getD "" ≠ "" ∧ st.outputText ≠ ""
      · rw [if_pos hfin]
        simp only [openedAfter]
        exact hinv hne
      · rw [if_neg hfin]
        simp only [openedAfter]
        exact hinv hne
    · rw [List.all_append, t3, Bool.true_and]
      by_cases hfin : choice.finish_reason.getD "" ≠ "" ∧ st.outputText ≠ ""
      · rw [if_pos hfin]; rfl
      · rw [if_neg hfin]; rfl
  case some =>
    by_cases hcc : c = ""
    · have key : processChoice choice st =
          (st, (match choice.delta.tool_calls with
                | some tcs => processToolCalls tcs st.outputIndex
                | none => []) ++
               (if choice.finish_reason.getD "" ≠ "" ∧ st.outputText ≠ "" then
                  [RespEvent.textDone st.outputIndex 0] else [])) := by
        simp [processChoice, hc, hcc]
      obtain ⟨t1, t2, t3⟩ := toolCallEvents_ok choice.delta.tool_calls st.outputIndex opened
      rw [key]
      refine ⟨?_, hidx, ?_, ?_⟩
      · rw [checkTextOrder_append, t1, t2, Bool.true_and]
        by_cases hfin : choice.finish_reason.getD "" ≠ "" ∧ st.outputText ≠ ""
        · rw [if_pos hfin, hidx]
          simp only [checkTextOrder, Bool.and_true, decide_eq_true_eq]
          exact hinv hfin.2
        · rw [if_neg hfin]; rfl
      · intro hne
        rw [openedAfter_append, t2]
        by_cases hfin : choice.finish_reason.getD "" ≠ "" ∧ st.outputText ≠ ""
        · rw [if_pos hfin]
          simp only [openedAfter]
          exact hinv hne
        · rw [if_neg hfin]
          simp only [openedAfter]
          exact hinv hne
      · rw [List.all_append, t3, Bool.true_and]
        by_cases hfin : choice.finish_reason.getD "" ≠ "" ∧ st.outputText ≠ ""
        · rw [if_pos hfin]; rfl
        · rw [if_neg hfin]; rfl
    · have key : processChoice choice st =
          ({ st with outputText := st.outputText ++ c },
           RespEvent.textDelta c st.outputIndex 0 ::
             ((match choice.delta.tool_calls with
               | some tcs => processToolCalls tcs st.outputIndex
               | none => []) ++
              (if choice.finish_reason.getD "" ≠ "" ∧ st.outputText ++ c ≠ "" then
                 [RespEvent.textDone st.outputIndex 0] else []))) := by
        simp [processChoice, hc, hcc]
      obtain ⟨t1, t2, t3⟩ :=
        toolCallEvents_ok choice.delta.tool_calls st.outputIndex
          ((st.outputIndex, 0) :: opened)
      rw [key]
      refine ⟨?_, hidx, ?_, ?_⟩
      · simp only [checkTextOrder]
        rw [checkTextOrder_append, t1, t2, Bool.true_and]
        by_cases hfin : choice.finish_reason.getD "" ≠ "" ∧ st.outputText ++ c ≠ ""
        · rw [if_pos hfin, hidx]
          simp only [checkTextOrder, Bool.and_true, decide_eq_true_eq]
          exact List.mem_cons_self _ _
        · rw [if_neg hfin]; rfl
      · intro _
        simp only [openedAfter]
        rw [openedAfter_append, t2]
        by_cases hfin : choice.finish_reason.getD "" ≠ "" ∧ st.outputText ++ c ≠ ""
        · rw [if_pos hfin]
          simp only [openedAfter]
          rw [hidx]
          exact List.mem_cons_self _ _
        · rw [if_neg hfin]
          simp only [openedAfter]
          rw [hidx]
          exact List.mem_cons_self _ _
      · rw [List.all_cons, List.all_append, t3]
        by_cases hfin : choice.finish_reason.getD "" ≠ "" ∧ st.outputText ++ c ≠ ""
        · rw [if_pos hfin]; rfl
        · rw [if_neg hfin]; rfl

/-- Auxiliary: the per-chunk choice loop preserves the sequencer
invariant. -/
theorem processChoices_ok (choices : List ChunkChoice) :
    ∀ (st : StreamState) (opened : List (Nat × Nat)),
    st.outputIndex = 0 → (st.outputText ≠ "" → (0, 0) ∈ opened) →
    checkTextOrder opened (processChoices choices st).2 = true ∧
    (processChoices choices st).1.outputIndex = 0 ∧
    ((processChoices choices st).1.outputText ≠ "" →
      (0, 0) ∈ openedAfter opened (processChoices choices st).2) ∧
    (processChoices choices st).2.all (fun e => !isDoneEvent e) = true := by
  induction choices with
  | nil =>
    intro st opened hidx hinv
    exact ⟨rfl, hidx, by simpa [processChoices, openedAfter] using hinv, rfl⟩
  | cons c cs ih =>
    intro st opened hidx hinv
    obtain ⟨h1, h2, h3, h4⟩ := processChoice_ok c st opened hidx hinv
    rcases hp : processChoice c st with ⟨st₁, evs₁⟩
    rw [hp] at h1 h2 h3 h4
    obtain ⟨g1, g2, g3, g4⟩ := ih st₁ (openedAfter opened evs₁) h2 h3
    rcases hq : processChoices cs st₁ with ⟨st₂, evs₂⟩
    rw [hq] at g1 g2 g3 g4
    have key : processChoices (c :: cs) st = (st₂, evs₁ ++ evs₂) := by
      simp [processChoices, hp, hq]
    rw [key]
    refine ⟨?_, g2, ?_, ?_⟩
    · rw [checkTextOrder_append, h1, g1]; rfl
    · intro hne
      rw [openedAfter_append]
      exact g3 hne
    · rw [List.all_append, h4, g4]; rfl

/-- Auxiliary: one `processStreamChunk` step preserves the sequencer
invariant (the response-id update touches neither the accumulated text nor
the output index). -/
theorem processStreamChunk_ok (r : Option ChatCompletionChunk) (st : StreamState)
    (opened : List (Nat × Nat)) (hidx : st.outputIndex = 0)
    (hinv : st.outputText ≠ "" → (0, 0) ∈ opened) :
    checkTextOrder opened (processStreamChunk r st).2 = true ∧
    (processStreamChunk r st).1.outputIndex = 0 ∧
    ((processStreamChunk r st).1.outputText ≠ "" →
      (0, 0) ∈ openedAfter opened (processStreamChunk r st).2) ∧
    (processStreamChunk r st).2.all (fun e => !isDoneEvent e) = true := by
  rcases r with _ | chunk
  · exact ⟨rfl, hidx, by simpa [processStreamChunk, openedAfter] using hinv, rfl⟩
  · by_cases hid : chunk.id ≠ ""
    · have key : processStreamChunk (some chunk) st =
          processChoices chunk.choices { st with responseId := chunk.id } := by
        simp [processStreamChunk, hid]
      rw [key]
      exact processChoices_ok chunk.choices { st with responseId := chunk.id }
        opened hidx hinv
    · have key : processStreamChunk (some chunk) st = processChoices chunk.choices st := by
        simp [processStreamChunk, hid]
      rw [key]
      exact processChoices_ok chunk.choices st opened hidx hinv

/-- Auxiliary: the whole record loop preserves the sequencer invariant. -/
theorem feedRecords_ok (records : List (Option ChatCompletionChunk)) :
    ∀ (st : StreamState) (opened : List (Nat × Nat)),
    st.outputIndex = 0 → (st.outputText ≠ "" → (0, 0) ∈ opened) →
    checkTextOrder opened (feedRecords records st).2 = true ∧
    (feedRecords records st).1.outputIndex = 0 ∧
    ((feedRecords records st).1.outputText ≠ "" →
      (0, 0) ∈ openedAfter opened (feedRecords records st).2) ∧
    (feedRecords records st).2.all (fun e => !isDoneEvent e) = true := by
  induction records with
  | nil =>
    intro st opened hidx hinv
    exact ⟨rfl, hidx, by simpa [feedRecords, openedAfter] using hinv, rfl⟩
  | cons r rs ih =>
    intro st opened hidx hinv
    obtain ⟨h1, h2, h3, h4⟩ := processStreamChunk_ok r st opened hidx hinv
    rcases hp : processStreamChunk r st with ⟨st₁, evs₁⟩
    rw [hp] at h1 h2 h3 h4
    obtain ⟨g1, g2, g3, g4⟩ := ih st₁ (openedAfter opened evs₁) h2 h3
    rcases hq : feedRecords rs st₁ with ⟨st₂, evs₂⟩
    rw [hq] at g1 g2 g3 g4
    have key : feedRecords (r :: rs) st = (st₂, evs₁ ++ evs₂) := by
      simp [feedRecords, hp, hq]
    rw [key]
    refine ⟨?_, g2, ?_, ?_⟩
    · rw [checkTextOrder_append, h1, g1]; rfl
    · intro hne
      rw [openedAfter_append]
      exact g3 hne
    · rw [List.all_append, h4, g4]; rfl

/-- Claim C3: for every sequence of incoming records, the emitted event
stream respects the ordering rules: every text-done event for a slot is
preceded by at least one text-delta event for that same slot
(`checkTextOrder` scan), the last event is the terminal done event, and no
terminal done event occurs anywhere before it. -/
theorem streaming_event_order (model placeholderId : String)
    (records : List (Option ChatCompletionChunk)) :
    checkTextOrder [] (handleResponsesStream model placeholderId records) = true ∧
    (∃ rid m t, (handleResponsesStream model placeholderId records).getLast? =
      some (RespEvent.done rid m t)) ∧
    (handleResponsesStream model placeholderId records).dropLast.all
      (fun e => !isDoneEvent e) = true := by
  obtain ⟨h1, _h2, _h3, h4⟩ :=
    feedRecords_ok records (createStreamState model placeholderId) []
      rfl (fun h => absurd rfl h)
  simp only [createStreamState] at h1 h4
  rcases hp : feedRecords records
      { outputText := "", responseId := placeholderId, model := model, outputIndex := 0 }
    with ⟨st, evs⟩
  rw [hp] at h1 h4
  have key : handleResponsesStream model placeholderId records =
      (RespEvent.created placeholderId model :: evs) ++
        [RespEvent.done st.responseId st.model st.outputText] := by
    simp [handleResponsesStream, createStreamState, hp]
  rw [key]
  refine ⟨?_, ⟨st.responseId, st.model, st.outputText, ?_⟩, ?_⟩
  · rw [checkTextOrder_append]
    have hcreated : checkTextOrder [] (RespEvent.created placeholderId model :: evs) =
        checkTextOrder [] evs := rfl
    rw [hcreated, h1]
    rfl
  · rw [List.getLast?_concat]
  · rw [List.dropLast_concat, List.all_cons, h4]
    rfl

end CopilotProxy
